import Mathlib

/-!
# Verification of the Anzen ERP inventory-allocation and reconciliation slice

Shallow embedding of the business logic of the DeliveryChallan, MaterialReturns
and ReceivablesManager components: FIFO batch selection, dispatch-edit stock
reconciliation, the challan approval workflow, challan deletion, material-return
submission, payment allocation, and challan-number generation.

Dates and timestamps are modelled as integers (milliseconds since epoch, the
value of `Date.getTime()`); monetary amounts as rationals; stock quantities as
integers. Remote-call failures are modelled by explicit boolean failure flags.
-/

set_option autoImplicit false

namespace Anzen

/-! ## Batches and FIFO selection (`DeliveryChallan`) -/

/-- A row of the `batches` table. `reserved_stock` exists on the table (other
parts of the component read `b.reserved_stock`), although `loadBatches` does not
select it. `expiry_date` and `import_date` are timestamps. -/
structure Batch where
  id : String
  product_id : String
  batch_number : String
  current_stock : Int
  reserved_stock : Int
  expiry_date : Option Int
  import_date : Int
  is_active : Bool
deriving Repr, DecidableEq

/-- Embeds `isExpired`: a null expiry date is never expired; otherwise expired iff the
expiry timestamp is strictly before the current time `now`. -/
def isExpired (now : Int) (expiryDate : Option Int) : Bool :=
  match expiryDate with
  | none => false
  | some d => d < now

/-- Embeds `loadBatches`: the snapshot kept in component state is the rows with
`is_active = true` and `current_stock > 0` (the query's `.eq`/`.gt` filters).
The query's ordering does not affect the selection result and is not modelled. -/
def loadBatches (rows : List Batch) : List Batch :=
  rows.filter (fun b => b.is_active && 0 < b.current_stock)

/-- Head of a stable ascending sort by `import_date`: the first element of the
list whose `import_date` is minimal, `none` on the empty list. -/
def fifoHead : List Batch → Option Batch
  | [] => none
  | b :: rest =>
    match fifoHead rest with
    | none => some b
    | some m => if b.import_date ≤ m.import_date then some b else some m

/-- The filter inside `getFIFOBatch`: among the loaded batches, those matching
the product and not expired. -/
def fifoCandidates (now : Int) (rows : List Batch) (productId : String) : List Batch :=
  (loadBatches rows).filter
    (fun b => b.product_id == productId && !(isExpired now b.expiry_date))

/-- Embeds `getFIFOBatch`, composed with the `loadBatches` snapshot filter: among the
loaded batches, keep those matching the product and not expired, sort by
`import_date` ascending, and return the first (or `none`). -/
def getFIFOBatch (now : Int) (rows : List Batch) (productId : String) : Option Batch :=
  fifoHead (fifoCandidates now rows productId)

/-- The eligibility predicate the code actually enforces for FIFO selection:
active, positive `current_stock`, matching product, not expired.
`reserved_stock` is not consulted. -/
def fifoEligible (now : Int) (productId : String) (b : Batch) : Prop :=
  b.is_active = true ∧ 0 < b.current_stock ∧ b.product_id = productId ∧
    isExpired now b.expiry_date = false

instance (now : Int) (productId : String) (b : Batch) :
    Decidable (fifoEligible now productId b) := by
  unfold fifoEligible; infer_instance

theorem fifoHead_eq_none {l : List Batch} : fifoHead l = none ↔ l = [] := by
  constructor
  · intro h
    cases l with
    | nil => rfl
    | cons a rest =>
      simp only [fifoHead] at h
      cases hrest : fifoHead rest with
      | none => rw [hrest] at h; cases h
      | some m =>
        rw [hrest] at h
        by_cases hle : a.import_date ≤ m.import_date <;> simp [hle] at h
  · intro h; subst h; rfl

theorem fifoHead_spec : ∀ (l : List Batch) (b : Batch), fifoHead l = some b →
    b ∈ l ∧ ∀ b' ∈ l, b.import_date ≤ b'.import_date := by
  intro l
  induction l with
  | nil => intro b h; cases h
  | cons a rest ih =>
    intro b h
    simp only [fifoHead] at h
    split at h
    · rename_i hrest
      have hnil : rest = [] := fifoHead_eq_none.mp hrest
      subst hnil
      have hba : b = a := by cases h; rfl
      subst hba
      exact ⟨List.mem_singleton_self _, by intro b' hb'; cases List.mem_singleton.mp hb'; rfl⟩
    · rename_i m hrest
      obtain ⟨hm_mem, hm_min⟩ := ih m hrest
      by_cases hle : a.import_date ≤ m.import_date
      · rw [if_pos hle] at h
        have hba : b = a := by cases h; rfl
        subst hba
        refine ⟨List.mem_cons_self _ _, ?_⟩
        intro b' hb'
        rcases List.mem_cons.mp hb' with hb'a | hb'rest
        · rw [hb'a]
        · exact le_trans hle (hm_min b' hb'rest)
      · rw [if_neg hle] at h
        have hbm : b = m := by cases h; rfl
        subst hbm
        refine ⟨List.mem_cons_of_mem _ hm_mem, ?_⟩
        intro b' hb'
        rcases List.mem_cons.mp hb' with hb'a | hb'rest
        · rw [hb'a]; exact le_of_lt (lt_of_not_le hle)
        · exact hm_min b' hb'rest

theorem mem_fifoCandidates (now : Int) (rows : List Batch) (pid : String) (b : Batch) :
    b ∈ fifoCandidates now rows pid ↔ b ∈ rows ∧ fifoEligible now pid b := by
  simp only [fifoCandidates, loadBatches, List.mem_filter, fifoEligible, Bool.and_eq_true,
    beq_iff_eq, Bool.not_eq_true', decide_eq_true_eq]
  tauto

/-- Concrete batches for evaluation: the spec's scenario (batch A imported
earlier than batch B, both in stock, no relevant expiry), plus a batch whose
stock is entirely reserved. -/
def batchA : Batch :=
  { id := "A", product_id := "P", batch_number := "BN-A", current_stock := 100,
    reserved_stock := 0, expiry_date := none, import_date := 100, is_active := true }

def batchB : Batch :=
  { id := "B", product_id := "P", batch_number := "BN-B", current_stock := 50,
    reserved_stock := 0, expiry_date := none, import_date := 200, is_active := true }

def reservedOnlyBatch : Batch :=
  { id := "R", product_id := "P", batch_number := "BN-R", current_stock := 10,
    reserved_stock := 10, expiry_date := none, import_date := 100, is_active := true }

/-- C1 (amended): `getFIFOBatch` returns a loaded batch with the earliest
`import_date` among batches that are active, have `current_stock > 0`, match the
product, and are not expired (`expiry_date` null or not before the current
time); it returns `none` when no batch satisfies those conditions.
`reserved_stock` plays no role in the selection. -/
theorem getFIFOBatch_earliest_import (now : Int) (rows : List Batch) (pid : String) :
    (∀ b, getFIFOBatch now rows pid = some b →
      b ∈ rows ∧ fifoEligible now pid b ∧
        ∀ b' ∈ rows, fifoEligible now pid b' → b.import_date ≤ b'.import_date)
    ∧ ((∀ b ∈ rows, ¬ fifoEligible now pid b) → getFIFOBatch now rows pid = none) := by
  constructor
  · intro b hb
    obtain ⟨hmem, hmin⟩ := fifoHead_spec _ _ hb
    rw [mem_fifoCandidates] at hmem
    refine ⟨hmem.1, hmem.2, ?_⟩
    intro b' hb' helig
    exact hmin b' ((mem_fifoCandidates now rows pid b').mpr ⟨hb', helig⟩)
  · intro hnone
    have hnil : fifoCandidates now rows pid = [] := by
      rw [List.eq_nil_iff_forall_not_mem]
      intro b hb
      rw [mem_fifoCandidates] at hb
      exact hnone b hb.1 hb.2
    unfold getFIFOBatch
    rw [hnil]
    rfl

/-- Witness for C1: on the spec's two-batch scenario the allocator returns
batch A, which is eligible and has the minimal import date. -/
theorem getFIFOBatch_earliest_import_witness :
    batchA ∈ [batchA, batchB] ∧ fifoEligible 0 "P" batchA ∧
      ∀ b' ∈ [batchA, batchB], fifoEligible 0 "P" b' →
        batchA.import_date ≤ b'.import_date :=
  (getFIFOBatch_earliest_import 0 [batchA, batchB] "P").1 batchA (by decide)

/-- Counterexample for C1 as stated: a batch whose available stock
(`current_stock − reserved_stock`) is zero is still selected, because the code
only requires `current_stock > 0`; the claim requires `none` here. -/
theorem getFIFOBatch_reserved_stock_counterexample :
    getFIFOBatch 0 [reservedOnlyBatch] "P" = some reservedOnlyBatch
    ∧ ∀ b ∈ [reservedOnlyBatch], ¬ (0 < b.current_stock - b.reserved_stock) := by
  decide

/-! ## Dispatch-edit stock reconciliation (`DeliveryChallan.handleSubmit`,
editing branch) -/

/-- A delivery-challan line item (the fields the stock logic reads). -/
structure ChallanItem where
  product_id : String
  batch_id : String
  quantity : Int
deriving Repr, DecidableEq

/-- An entry of the `stockAdjustments` array built by the editing branch. -/
structure StockAdjustment where
  batch_id : String
  adjustment : Int
deriving Repr, DecidableEq

/-- The mutation performed by
`stockAdjustments.find(adj => adj.batch_id === newItem.batch_id)` followed by
`existingAdjustment.adjustment -= newItem.quantity`: subtract `q` from the
first entry whose `batch_id` is `b`; leave the list unchanged if none matches. -/
def subFirstAdjustment : List StockAdjustment → String → Int → List StockAdjustment
  | [], _, _ => []
  | a :: rest, b, q =>
    if a.batch_id = b then { a with adjustment := a.adjustment - q } :: rest
    else a :: subFirstAdjustment rest b q

/-- Processing one new line item: subtract its quantity from the first matching
adjustment entry, or append a fresh entry with the negated quantity. -/
def applyNewItem (adjs : List StockAdjustment) (it : ChallanItem) : List StockAdjustment :=
  if adjs.any (fun a => a.batch_id == it.batch_id) then
    subFirstAdjustment adjs it.batch_id it.quantity
  else adjs ++ [⟨it.batch_id, -it.quantity⟩]

/-- The `stockAdjustments` array: one positive entry per original item, then
each new item folded in via `applyNewItem`. -/
def computeStockAdjustments (originalItems newItems : List ChallanItem) :
    List StockAdjustment :=
  newItems.foldl applyNewItem (originalItems.map fun it => ⟨it.batch_id, it.quantity⟩)

/-- Total adjustment recorded against batch `b`. -/
def netAdjustment (adjs : List StockAdjustment) (b : String) : Int :=
  ((adjs.filter (fun a => a.batch_id == b)).map (fun a => a.adjustment)).sum

/-- Total quantity of line items drawing on batch `b`. -/
def batchQuantity (items : List ChallanItem) (b : String) : Int :=
  ((items.filter (fun it => it.batch_id == b)).map (fun it => it.quantity)).sum

/-- The adjustment loop. Per entry with a nonzero adjustment: the
`update_batch_stock` RPC adds the adjustment to the batch's stock; when the RPC
fails (`rpcFails`), the code re-reads `current_stock` and writes
`current_stock + adjustment` directly; when that read also fails
(`readFails`), the entry is skipped. The loop never throws: it always continues
to the next entry and then to the document update. -/
def adjStep (rpcFails readFails : String → Bool) (st : String → Int)
    (a : StockAdjustment) : String → Int :=
  if a.adjustment = 0 then st
  else if rpcFails a.batch_id then
    (if readFails a.batch_id then st
     else fun x => if x = a.batch_id then st a.batch_id + a.adjustment else st x)
  else fun x => if x = a.batch_id then st a.batch_id + a.adjustment else st x

def applyStockAdjustments (rpcFails readFails : String → Bool)
    (stocks : String → Int) (adjs : List StockAdjustment) : String → Int :=
  adjs.foldl (adjStep rpcFails readFails) stocks

/-- The editing branch as a whole: the stock-adjustment loop runs first and
unconditionally; the subsequent challan update aborts the save only when the
document write itself fails (`docUpdateFails`). Stock-write failures never
abort. First component: resulting stocks; second: whether the save completed. -/
def dispatchEditSave (rpcFails readFails : String → Bool) (docUpdateFails : Bool)
    (stocks : String → Int) (adjs : List StockAdjustment) : (String → Int) × Bool :=
  (applyStockAdjustments rpcFails readFails stocks adjs, !docUpdateFails)

theorem netAdjustment_nil (b : String) : netAdjustment [] b = 0 := rfl

theorem netAdjustment_cons (a : StockAdjustment) (rest : List StockAdjustment) (b : String) :
    netAdjustment (a :: rest) b =
      (if a.batch_id = b then a.adjustment else 0) + netAdjustment rest b := by
  by_cases h : a.batch_id = b <;>
    simp [netAdjustment, List.filter_cons, h]

theorem netAdjustment_append (l1 l2 : List StockAdjustment) (b : String) :
    netAdjustment (l1 ++ l2) b = netAdjustment l1 b + netAdjustment l2 b := by
  simp [netAdjustment, List.filter_append]

theorem batchQuantity_cons (it : ChallanItem) (rest : List ChallanItem) (b : String) :
    batchQuantity (it :: rest) b =
      (if it.batch_id = b then it.quantity else 0) + batchQuantity rest b := by
  by_cases h : it.batch_id = b <;>
    simp [batchQuantity, List.filter_cons, h]

theorem netAdjustment_subFirst (b0 : String) (q : Int) :
    ∀ (adjs : List StockAdjustment), adjs.any (fun a => a.batch_id == b0) = true →
      ∀ b, netAdjustment (subFirstAdjustment adjs b0 q) b =
        netAdjustment adjs b - (if b0 = b then q else 0) := by
  intro adjs
  induction adjs with
  | nil => intro h; cases h
  | cons a rest ih =>
    intro hany b
    by_cases ha : a.batch_id = b0
    · rw [subFirstAdjustment, if_pos ha]
      rw [netAdjustment_cons, netAdjustment_cons]
      by_cases hb : b0 = b
      · have hab : a.batch_id = b := ha.trans hb
        simp [hab, hb]
        ring
      · have hab : ¬ (a.batch_id = b) := fun hc => hb (ha ▸ hc)
        simp only [if_neg hab, if_neg hb]
        ring
    · rw [subFirstAdjustment, if_neg ha]
      have hrest : rest.any (fun a => a.batch_id == b0) = true := by
        rcases List.any_eq_true.mp hany with ⟨x, hx, hxb⟩
        rcases List.mem_cons.mp hx with rfl | hxr
        · exact absurd (beq_iff_eq.mp hxb) ha
        · exact List.any_eq_true.mpr ⟨x, hxr, hxb⟩
      rw [netAdjustment_cons, netAdjustment_cons, ih hrest b]
      ring

theorem netAdjustment_applyNewItem (adjs : List StockAdjustment) (it : ChallanItem)
    (b : String) :
    netAdjustment (applyNewItem adjs it) b =
      netAdjustment adjs b - (if it.batch_id = b then it.quantity else 0) := by
  unfold applyNewItem
  by_cases hany : adjs.any (fun a => a.batch_id == it.batch_id) = true
  · rw [if_pos hany]
    exact netAdjustment_subFirst it.batch_id it.quantity adjs hany b
  · rw [if_neg hany, netAdjustment_append, netAdjustment_cons, netAdjustment_nil]
    by_cases hb : it.batch_id = b <;> simp [hb] <;> ring

theorem netAdjustment_foldl (newItems : List ChallanItem) :
    ∀ (adjs : List StockAdjustment) (b : String),
      netAdjustment (newItems.foldl applyNewItem adjs) b =
        netAdjustment adjs b - batchQuantity newItems b := by
  induction newItems with
  | nil => intro adjs b; simp [batchQuantity]
  | cons it rest ih =>
    intro adjs b
    rw [List.foldl_cons, ih, netAdjustment_applyNewItem, batchQuantity_cons]
    ring

theorem netAdjustment_init (orig : List ChallanItem) (b : String) :
    netAdjustment (orig.map fun it => (⟨it.batch_id, it.quantity⟩ : StockAdjustment)) b =
      batchQuantity orig b := by
  induction orig with
  | nil => simp [netAdjustment, batchQuantity]
  | cons it rest ih =>
    rw [List.map_cons, netAdjustment_cons, batchQuantity_cons, ih]

theorem computeStockAdjustments_net (orig new : List ChallanItem) (b : String) :
    netAdjustment (computeStockAdjustments orig new) b =
      batchQuantity orig b - batchQuantity new b := by
  rw [computeStockAdjustments, netAdjustment_foldl, netAdjustment_init]

theorem adjStep_eq (rf gf : String → Bool) (st : String → Int) (a : StockAdjustment)
    (b : String) :
    adjStep rf gf st a b =
      st b + (if a.batch_id = b ∧ ¬ (rf b = true ∧ gf b = true) then a.adjustment else 0) := by
  unfold adjStep
  by_cases hz : a.adjustment = 0
  · simp [hz]
  · rw [if_neg hz]
    by_cases hb : a.batch_id = b
    · subst hb
      cases hrf : rf a.batch_id with
      | false => simp [hrf]
      | true =>
        cases hgf : gf a.batch_id with
        | false => simp [hrf, hgf]
        | true => simp [hrf, hgf]
    · have hba : ¬ (b = a.batch_id) := fun hc => hb hc.symm
      cases hrf : rf a.batch_id with
      | false => simp [hrf, hb, hba]
      | true =>
        cases hgf : gf a.batch_id with
        | false => simp [hrf, hgf, hb, hba]
        | true => simp [hrf, hgf, hb]

theorem applyStockAdjustments_eq (rf gf : String → Bool) :
    ∀ (adjs : List StockAdjustment) (stocks : String → Int) (b : String),
      applyStockAdjustments rf gf stocks adjs b =
        stocks b + (if rf b = true ∧ gf b = true then 0 else netAdjustment adjs b) := by
  intro adjs
  induction adjs with
  | nil =>
    intro stocks b
    by_cases h : rf b = true ∧ gf b = true <;>
      simp [applyStockAdjustments, h, netAdjustment_nil]
  | cons a rest ih =>
    intro stocks b
    have hcons : applyStockAdjustments rf gf stocks (a :: rest) =
        applyStockAdjustments rf gf (adjStep rf gf stocks a) rest := rfl
    rw [hcons, ih, adjStep_eq, netAdjustment_cons]
    by_cases hc : rf b = true ∧ gf b = true
    · simp [hc]
    · by_cases hb : a.batch_id = b <;> simp [hc, hb] <;> ring

/-- Concrete line items for the spec's edit scenario. -/
def itemA20 : ChallanItem := { product_id := "prodA", batch_id := "A", quantity := 20 }

def itemA35 : ChallanItem := { product_id := "prodA", batch_id := "A", quantity := 35 }

/-- C3: on an edit with all stock writes succeeding, each batch's final stock is
its previous stock plus (sum of the batch's original quantities) minus (sum of
the batch's new quantities); in the spec scenario the net adjustment on batch A
is −15. -/
theorem dispatch_edit_net_adjustment (orig new : List ChallanItem)
    (stocks : String → Int) (b : String) :
    applyStockAdjustments (fun _ => false) (fun _ => false) stocks
        (computeStockAdjustments orig new) b
      = stocks b + (batchQuantity orig b - batchQuantity new b)
    ∧ netAdjustment (computeStockAdjustments [itemA20] [itemA35]) "A" = -15 := by
  constructor
  · rw [applyStockAdjustments_eq, computeStockAdjustments_net]
    simp
  · decide

/-- C5: an edit whose new items equal the original items leaves every batch's
stock unchanged. -/
theorem dispatch_noop_edit_zero (items : List ChallanItem) (stocks : String → Int)
    (b : String) :
    applyStockAdjustments (fun _ => false) (fun _ => false) stocks
        (computeStockAdjustments items items) b = stocks b := by
  rw [applyStockAdjustments_eq, computeStockAdjustments_net]
  simp

/-- Counterexample for C4 as stated: with the RPC and the fallback read failing
for batch A only, the save still completes and batch B's adjustment is applied
while batch A's is not — a strict subset of the adjustments is applied and the
save is not aborted. -/
theorem dispatch_edit_failure_counterexample :
    (dispatchEditSave (fun x => x == "A") (fun x => x == "A") false
        (fun _ => 100) [⟨"A", 5⟩, ⟨"B", 3⟩]).2 = true
    ∧ (dispatchEditSave (fun x => x == "A") (fun x => x == "A") false
        (fun _ => 100) [⟨"A", 5⟩, ⟨"B", 3⟩]).1 "B" = 103
    ∧ (dispatchEditSave (fun x => x == "A") (fun x => x == "A") false
        (fun _ => 100) [⟨"A", 5⟩, ⟨"B", 3⟩]).1 "A" = 100 := by
  refine ⟨rfl, ?_, ?_⟩ <;> decide

/-- C4 (amended): a failed RPC stock write does not abort the save. The code
falls back to a direct read-modify-write applying the same adjustment; only
when the fallback read also fails is that batch's adjustment silently skipped,
and the loop continues either way. The save completes iff the subsequent
document write succeeds, independently of stock-write failures. -/
theorem dispatch_edit_failure_behavior (rf gf : String → Bool) (docFail : Bool)
    (stocks : String → Int) (adjs : List StockAdjustment) (b : String) :
    ((dispatchEditSave rf gf docFail stocks adjs).2 = true ↔ docFail = false)
    ∧ (dispatchEditSave rf gf docFail stocks adjs).1 b
        = stocks b + (if rf b = true ∧ gf b = true then 0 else netAdjustment adjs b) := by
  constructor
  · cases docFail <;> simp [dispatchEditSave]
  · exact applyStockAdjustments_eq rf gf adjs stocks b

/-- Witness for C4 (amended): a save with no document-write failure completes. -/
theorem dispatch_edit_failure_behavior_witness :
    (dispatchEditSave (fun _ => false) (fun _ => false) false
        (fun _ => 100) [⟨"A", 5⟩]).2 = true :=
  (dispatch_edit_failure_behavior (fun _ => false) (fun _ => false) false
    (fun _ => 100) [⟨"A", 5⟩] "A").1.mpr rfl

/-! ## Approval workflow (`handleApproveChallan` / `handleRejectChallan`, the
approval-status column render, and the `handleSubmit` editing branch) -/

/-- The actions that can write `approval_status`: the approve/reject buttons
and saving an edit of an existing challan (`handleSubmit`, editing branch). -/
inductive ChallanAction where
  | approve : ChallanAction
  | reject : String → ChallanAction
  | edit : ChallanAction

/-- The role gate on the edit (and delete/create) actions:
`role === 'admin' || 'accounts' || 'sales' || 'warehouse'`. -/
def canManage (role : String) : Bool :=
  role == "admin" || role == "accounts" || role == "sales" || role == "warehouse"

/-- Composition of the UI gates and the handlers that write `approval_status`.
The approve/reject buttons are rendered only when
`approval_status === 'pending_approval'` and `profile?.role === 'admin'`;
`handleApproveChallan` sets `approved`; `handleRejectChallan` requires a
non-blank reason and sets `rejected`. The edit button is rendered for any
`canManage` role with no status check, and the editing branch of `handleSubmit`
updates the challan with `challanData`, whose `approval_status` field is the
constant `'pending_approval'`. -/
def approvalTransition (status role : String) (a : ChallanAction) : String :=
  match a with
  | ChallanAction.approve =>
    if status = "pending_approval" ∧ role = "admin" then "approved" else status
  | ChallanAction.reject reason =>
    if status = "pending_approval" ∧ role = "admin" then
      (if reason.trim = "" then status else "rejected")
    else status
  | ChallanAction.edit =>
    if canManage role then "pending_approval" else status

/-- Counterexample for C7 as stated: saving an edit of an `approved` challan —
available to the non-admin `sales` role — writes `approval_status` back to
`pending_approval`, a transition out of `approved` performed without the
privileged role; the claim admits no transition out of `approved`. -/
theorem approval_status_edit_counterexample :
    approvalTransition "approved" "sales" ChallanAction.edit = "pending_approval"
    ∧ ("pending_approval" : String) ≠ "approved"
    ∧ ("sales" : String) ≠ "admin"
    ∧ approvalTransition "rejected" "warehouse" ChallanAction.edit = "pending_approval" := by
  refine ⟨rfl, by decide, by decide, rfl⟩

/-- C7 (amended): the approve/reject buttons move a challan only from
`pending_approval` to `approved` or `rejected`, only under the admin role, a
rejection requiring a non-blank reason; but saving an edit — available to any
`canManage` role (admin, accounts, sales, warehouse) with no status guard —
resets any challan, including an `approved` or `rejected` one, back to
`pending_approval`, so `approved` and `rejected` are not terminal. A role
outside `canManage` changes nothing. -/
theorem approval_state_machine (s r : String) :
    (approvalTransition s r ChallanAction.approve ≠ s →
      s = "pending_approval" ∧ r = "admin" ∧
        approvalTransition s r ChallanAction.approve = "approved")
    ∧ (∀ reason, approvalTransition s r (ChallanAction.reject reason) ≠ s →
        s = "pending_approval" ∧ r = "admin" ∧ reason.trim ≠ "" ∧
          approvalTransition s r (ChallanAction.reject reason) = "rejected")
    ∧ (canManage r = true → approvalTransition s r ChallanAction.edit = "pending_approval")
    ∧ (canManage r = false → approvalTransition s r ChallanAction.edit = s) := by
  refine ⟨?_, ?_, ?_, ?_⟩
  · intro hne
    by_cases hg : s = "pending_approval" ∧ r = "admin"
    · exact ⟨hg.1, hg.2, by simp [approvalTransition, hg]⟩
    · exact absurd (by simp [approvalTransition, hg]) hne
  · intro reason hne
    by_cases hg : s = "pending_approval" ∧ r = "admin"
    · by_cases hre : reason.trim = ""
      · exact absurd (by simp [approvalTransition, hg, hre]) hne
      · exact ⟨hg.1, hg.2, hre, by simp [approvalTransition, hg, hre]⟩
    · exact absurd (by simp [approvalTransition, hg]) hne
  · intro hc
    simp [approvalTransition, hc]
  · intro hc
    simp [approvalTransition, hc]

/-- Witness for C7 (amended): the `sales` role can edit, and the edit resets an
approved challan to `pending_approval`. -/
theorem approval_state_machine_witness :
    approvalTransition "approved" "sales" ChallanAction.edit = "pending_approval" :=
  (approval_state_machine "approved" "sales").2.2.1 rfl

/-! ## Challan deletion (`handleDelete`, DeliveryChallan) -/

/-- The columns of `delivery_challans` the delete handler reads. -/
structure ChallanDoc where
  id : String
  sales_order_id : Option String
deriving Repr, DecidableEq

/-- The state `handleDelete` touches: the challan table, every batch's
`current_stock`, and every sales order's `status`. -/
structure DispatchState where
  challans : List ChallanDoc
  batchStocks : String → Int
  orderStatus : String → String

/-- Embeds `handleDelete`: read the challan's `sales_order_id`, delete the challan row,
and, when a sales order is linked, set its status to `pending_delivery`. No
batch row is read or written. -/
def handleDeleteChallan (s : DispatchState) (id : String) : DispatchState :=
  let dcData := s.challans.find? (fun c => c.id == id)
  let s1 : DispatchState := { s with challans := s.challans.filter (fun c => !(c.id == id)) }
  match dcData with
  | some dc =>
    match dc.sales_order_id with
    | some so =>
      { s1 with orderStatus := fun x => if x = so then "pending_delivery" else s1.orderStatus x }
    | none => s1
  | none => s1

/-- C8: deleting a challan changes no batch's `current_stock`; it removes the
challan row, reverts a linked sales order's status to `pending_delivery`, and
leaves every other order's status unchanged. -/
theorem delete_restores_no_stock (s : DispatchState) (id : String) :
    (handleDeleteChallan s id).batchStocks = s.batchStocks
    ∧ (handleDeleteChallan s id).challans = s.challans.filter (fun c => !(c.id == id))
    ∧ (∀ dc, s.challans.find? (fun c => c.id == id) = some dc →
        ∀ so, dc.sales_order_id = some so →
          (handleDeleteChallan s id).orderStatus so = "pending_delivery")
    ∧ (∀ x, (∀ dc, s.challans.find? (fun c => c.id == id) = some dc →
          ∀ so, dc.sales_order_id = some so → so ≠ x) →
        (handleDeleteChallan s id).orderStatus x = s.orderStatus x) := by
  cases hfind : s.challans.find? (fun c => c.id == id) with
  | none =>
    refine ⟨?_, ?_, ?_, ?_⟩
    · simp [handleDeleteChallan, hfind]
    · simp [handleDeleteChallan, hfind]
    · intro dc hdc; cases hdc
    · intro x _; simp [handleDeleteChallan, hfind]
  | some dc =>
    cases hso : dc.sales_order_id with
    | none =>
      refine ⟨?_, ?_, ?_, ?_⟩
      · simp [handleDeleteChallan, hfind, hso]
      · simp [handleDeleteChallan, hfind, hso]
      · intro dc' hdc' so hso'
        cases hdc'
        rw [hso] at hso'
        cases hso'
      · intro x _; simp [handleDeleteChallan, hfind, hso]
    | some so =>
      refine ⟨?_, ?_, ?_, ?_⟩
      · simp [handleDeleteChallan, hfind, hso]
      · simp [handleDeleteChallan, hfind, hso]
      · intro dc' hdc' so' hso'
        cases hdc'
        rw [hso] at hso'
        cases hso'
        simp [handleDeleteChallan, hfind, hso]
      · intro x hx
        have hne : so ≠ x := hx dc rfl so hso
        simp [handleDeleteChallan, hfind, hso]
        intro hxe
        exact absurd hxe.symm hne

/-- A concrete state for evaluating C8: one challan linked to order SO1. -/
def sampleDispatchState : DispatchState :=
  { challans := [{ id := "DC1", sales_order_id := some "SO1" }],
    batchStocks := fun _ => 100,
    orderStatus := fun _ => "delivered" }

/-- Witness for C8: deleting the linked challan reverts SO1 to
`pending_delivery`. -/
theorem delete_restores_no_stock_witness :
    (handleDeleteChallan sampleDispatchState "DC1").orderStatus "SO1" = "pending_delivery" :=
  (delete_restores_no_stock sampleDispatchState "DC1").2.2.1
    { id := "DC1", sales_order_id := some "SO1" } (by decide) "SO1" rfl

/-! ## Material returns (`MaterialReturns.handleSubmit`) -/

/-- The create-return form fields read by the submit handler. -/
structure ReturnFormData where
  customer_id : String
  original_dc_id : String
  return_date : String
  return_type : String
  return_reason : String
  notes : String
deriving Repr, DecidableEq

/-- One row of the return-items form (one per original challan item). -/
structure ReturnItem where
  product_id : String
  batch_id : String
  quantity_returned : Int
  original_quantity : Int
  condition : String
  notes : String
deriving Repr, DecidableEq

/-- The `material_returns` row inserted on acceptance. -/
structure MaterialReturn where
  customer_id : String
  original_dc_id : String
  return_date : String
  return_type : String
  return_reason : String
  notes : String
  status : String
deriving Repr, DecidableEq

/-- One `material_return_items` row. -/
structure MaterialReturnItem where
  product_id : String
  batch_id : String
  quantity_returned : Int
  original_quantity : Int
  condition : String
  notes : String
deriving Repr, DecidableEq

/-- Embeds `handleSubmit` of MaterialReturns: reject when a required field is blank, when no item has a
positive `quantity_returned`, or when some item with positive
`quantity_returned` exceeds its `original_quantity`; otherwise insert the
return with status `pending_approval` and only the items with positive
`quantity_returned`. -/
def materialReturnSubmit (fd : ReturnFormData) (returnItems : List ReturnItem) :
    Option (MaterialReturn × List MaterialReturnItem) :=
  if fd.customer_id = "" ∨ fd.original_dc_id = "" ∨ fd.return_reason = "" then none
  else
    let validItems := returnItems.filter (fun it => 0 < it.quantity_returned)
    if validItems.isEmpty then none
    else if validItems.any (fun it => it.original_quantity < it.quantity_returned) then none
    else some
      ({ customer_id := fd.customer_id, original_dc_id := fd.original_dc_id,
         return_date := fd.return_date, return_type := fd.return_type,
         return_reason := fd.return_reason, notes := fd.notes,
         status := "pending_approval" },
        validItems.map (fun it =>
          { product_id := it.product_id, batch_id := it.batch_id,
            quantity_returned := it.quantity_returned,
            original_quantity := it.original_quantity,
            condition := it.condition, notes := it.notes }))

/-- C9: the submission is rejected (nothing persisted) when no item has a
positive returned quantity or when some positively-returned item exceeds its
dispatched quantity; on acceptance the return is created with status
`pending_approval` and exactly the positively-returned items are persisted. -/
theorem material_return_submit_spec (fd : ReturnFormData) (items : List ReturnItem) :
    ((∀ it ∈ items, ¬ (0 < it.quantity_returned)) → materialReturnSubmit fd items = none)
    ∧ ((∃ it ∈ items, 0 < it.quantity_returned ∧ it.original_quantity < it.quantity_returned) →
        materialReturnSubmit fd items = none)
    ∧ (∀ r its, materialReturnSubmit fd items = some (r, its) →
        r.status = "pending_approval" ∧
          its = (items.filter (fun it => 0 < it.quantity_returned)).map (fun it =>
            ({ product_id := it.product_id, batch_id := it.batch_id,
               quantity_returned := it.quantity_returned,
               original_quantity := it.original_quantity,
               condition := it.condition, notes := it.notes } : MaterialReturnItem))) := by
  by_cases hreq : fd.customer_id = "" ∨ fd.original_dc_id = "" ∨ fd.return_reason = ""
  · refine ⟨?_, ?_, ?_⟩
    · intro _; simp [materialReturnSubmit, hreq]
    · intro _; simp [materialReturnSubmit, hreq]
    · intro r its h
      rw [materialReturnSubmit, if_pos hreq] at h
      cases h
  · refine ⟨?_, ?_, ?_⟩
    · intro hnone
      have hnil : items.filter (fun it => 0 < it.quantity_returned) = [] := by
        rw [List.eq_nil_iff_forall_not_mem]
        intro it hit
        obtain ⟨hmem, hpos⟩ := List.mem_filter.mp hit
        exact hnone it hmem (by exact_mod_cast of_decide_eq_true hpos)
      rw [materialReturnSubmit, if_neg hreq]
      simp only [hnil]
      rfl
    · intro hex
      obtain ⟨it, hit, hpos, hexc⟩ := hex
      rw [materialReturnSubmit, if_neg hreq]
      have hfmem : it ∈ items.filter (fun it => 0 < it.quantity_returned) :=
        List.mem_filter.mpr ⟨hit, decide_eq_true hpos⟩
      have hne : (items.filter (fun it => 0 < it.quantity_returned)).isEmpty = false := by
        cases hl : items.filter (fun it => 0 < it.quantity_returned) with
        | nil => rw [hl] at hfmem; cases hfmem
        | cons a rest => rfl
      have hany : (items.filter (fun it => 0 < it.quantity_returned)).any
          (fun it => it.original_quantity < it.quantity_returned) = true :=
        List.any_eq_true.mpr ⟨it, hfmem, decide_eq_true hexc⟩
      simp only [hne, hany]
      rfl
    · intro r its h
      rw [materialReturnSubmit, if_neg hreq] at h
      by_cases hne : (items.filter (fun it => 0 < it.quantity_returned)).isEmpty = true
      · simp only [hne] at h; cases h
      · rw [Bool.not_eq_true] at hne
        simp only [hne] at h
        by_cases hany : (items.filter (fun it => 0 < it.quantity_returned)).any
            (fun it => it.original_quantity < it.quantity_returned) = true
        · simp only [hany] at h; cases h
        · rw [Bool.not_eq_true] at hany
          simp only [hany] at h
          cases h
          exact ⟨rfl, rfl⟩

/-- Concrete inputs for evaluating C9. -/
def sampleReturnForm : ReturnFormData :=
  { customer_id := "C1", original_dc_id := "DC1", return_date := "2025-01-01",
    return_type := "good_return", return_reason := "damaged", notes := "" }

def sampleReturnItems : List ReturnItem :=
  [{ product_id := "P1", batch_id := "B1", quantity_returned := 2,
     original_quantity := 5, condition := "good", notes := "" },
   { product_id := "P2", batch_id := "B2", quantity_returned := 0,
     original_quantity := 5, condition := "good", notes := "" }]

/-- Witness for C9: the accepted sample return has status `pending_approval`
and persists only the positively-returned item. -/
theorem material_return_submit_spec_witness :
    ({ customer_id := "C1", original_dc_id := "DC1", return_date := "2025-01-01",
       return_type := "good_return", return_reason := "damaged", notes := "",
       status := "pending_approval" } : MaterialReturn).status = "pending_approval" ∧
      ([{ product_id := "P1", batch_id := "B1", quantity_returned := 2,
          original_quantity := 5, condition := "good", notes := "" }] :
            List MaterialReturnItem)
        = (sampleReturnItems.filter (fun it => 0 < it.quantity_returned)).map (fun it =>
            ({ product_id := it.product_id, batch_id := it.batch_id,
               quantity_returned := it.quantity_returned,
               original_quantity := it.original_quantity,
               condition := it.condition, notes := it.notes } : MaterialReturnItem)) :=
  (material_return_submit_spec sampleReturnForm sampleReturnItems).2.2 _ _ (by decide)

/-! ## Payment allocation (`ReceivablesManager.handleSubmit` and the
allocation-entry inputs) -/

/-- Embeds `handleSubmit` of ReceivablesManager: with `totalAllocated` the sum over the entered allocation
map, reject when `totalAllocated > amount` or `totalAllocated === 0`; otherwise
insert the payment and one allocation row per entry with a positive amount
(`.filter(([_, amount]) => amount > 0)`). `none` models rejection with nothing
written; `some rows` the persisted allocation rows. -/
def submitPayment (amount : ℚ) (allocations : List (String × ℚ)) :
    Option (List (String × ℚ)) :=
  let totalAllocated := (allocations.map Prod.snd).sum
  if amount < totalAllocated then none
  else if totalAllocated = 0 then none
  else some (allocations.filter (fun a => 0 < a.2))

/-- The per-invoice amount input: a typed value exceeding the invoice's
remaining balance is refused (the stored allocation keeps its current value);
otherwise the typed value is stored. -/
def allocationInputChange (balance current value : ℚ) : ℚ :=
  if balance < value then current else value

/-- Counterexample for C2 as stated: an allocation set containing a zero
amount is accepted and persisted (the zero row silently dropped), where the
claim requires rejection with nothing written. -/
theorem payment_allocation_counterexample :
    submitPayment 100 [("INV1", 0), ("INV2", 50)] = some [("INV2", 50)]
    ∧ ¬ (∀ p ∈ [(("INV1" : String), (0 : ℚ)), ("INV2", 50)], 0 < p.2) := by
  constructor
  · norm_num [submitPayment]
  · intro h
    exact absurd (h ("INV1", 0) (List.mem_cons_self _ _)) (by norm_num)

/-- C2 (amended): the submission is rejected (nothing written) iff the sum of
the entered allocation amounts exceeds the payment amount or is zero; on
acceptance exactly the rows with positive amounts are persisted (non-positive
entries are dropped, not rejected); the per-invoice balance bound is enforced
at input time by `allocationInputChange`, not re-validated at submission. -/
theorem payment_allocation_submit_spec (amount : ℚ) (allocations : List (String × ℚ)) :
    (submitPayment amount allocations = none ↔
      (amount < (allocations.map Prod.snd).sum ∨ (allocations.map Prod.snd).sum = 0))
    ∧ (∀ rows, submitPayment amount allocations = some rows →
        rows = allocations.filter (fun a => 0 < a.2))
    ∧ (∀ balance current value : ℚ, balance < value →
        allocationInputChange balance current value = current)
    ∧ (∀ balance current value : ℚ, value ≤ balance →
        allocationInputChange balance current value = value) := by
  refine ⟨?_, ?_, ?_, ?_⟩
  · unfold submitPayment
    by_cases h1 : amount < (allocations.map Prod.snd).sum
    · simp [h1]
    · by_cases h2 : (allocations.map Prod.snd).sum = 0 <;> simp [h1, h2]
  · intro rows h
    unfold submitPayment at h
    by_cases h1 : amount < (allocations.map Prod.snd).sum
    · rw [if_pos h1] at h; cases h
    · rw [if_neg h1] at h
      by_cases h2 : (allocations.map Prod.snd).sum = 0
      · rw [if_pos h2] at h; cases h
      · rw [if_neg h2] at h; cases h; rfl
  · intro balance current value h
    unfold allocationInputChange
    rw [if_pos h]
  · intro balance current value h
    unfold allocationInputChange
    rw [if_neg (not_lt.mpr h)]

/-- Witness for C2 (amended): an over-allocated submission is rejected. -/
theorem payment_allocation_submit_spec_witness :
    submitPayment 100 [("INV1", 200)] = none :=
  (payment_allocation_submit_spec 100 [("INV1", 200)]).1.mpr (Or.inl (by norm_num))

/-- C6: any submission whose allocation sum is strictly between zero and the
payment amount is accepted (under-allocation is not an error). -/
theorem payment_under_allocation_accepted (amount : ℚ) (allocations : List (String × ℚ))
    (h1 : 0 < (allocations.map Prod.snd).sum)
    (h2 : (allocations.map Prod.snd).sum < amount) :
    (submitPayment amount allocations).isSome = true := by
  unfold submitPayment
  rw [if_neg (not_lt.mpr (le_of_lt h2)), if_neg (ne_of_gt h1)]
  rfl

/-- Witness for C6: a payment of 100 with a single allocation of 60 is
accepted. -/
theorem payment_under_allocation_accepted_witness :
    (submitPayment 100 [("INV1", 60)]).isSome = true :=
  payment_under_allocation_accepted 100 [("INV1", 60)] (by norm_num) (by norm_num)

/-! ## Challan-number generation (`generateNextChallanNumber`) -/

/-- Value of the trailing digit run of `s` (the regex `(\d+)$` followed by
`parseInt`); `0` when `s` does not end in a digit. -/
def trailingSuffix (s : String) : Nat :=
  ((s.data.reverse.takeWhile Char.isDigit).reverse).foldl
    (fun n c => n * 10 + (c.toNat - 48)) 0

/-- Embeds `String(n).padStart(4, '0')` (48 is the code point of the zero digit). -/
def pad4 (n : Nat) : String :=
  let s := toString n
  if s.length < 4 then String.mk (List.replicate (4 - s.length) (Char.ofNat 48)) ++ s else s

/-- Structural prefix test on character lists (the semantics of the SQL
pattern `p%`). -/
def startsWithChars : List Char → List Char → Bool
  | [], _ => true
  | _ :: _, [] => false
  | p :: ps, c :: cs => (p == c) && startsWithChars ps cs

/-- The server-side `like` filter: challan numbers beginning `DO-<year>` or
`DC-<year>`. -/
def challanYearMatch (yearCode s : String) : Bool :=
  startsWithChars ("DO-" ++ yearCode).data s.data
    || startsWithChars ("DC-" ++ yearCode).data s.data

/-- Embeds `Math.max(...numbers)` over the trailing suffixes, `0` for the empty
list. -/
def maxTrailing (l : List String) : Nat :=
  (l.map trailingSuffix).foldl Nat.max 0

/-- Embeds `generateNextChallanNumber`: on a successful lookup, one plus the maximal
trailing suffix among the year-matching challan numbers (1 when there are
none), zero-padded to four digits behind `DO-<year>-`; the constant
`DO-25-0001` on a lookup error (`none`). -/
def generateNextChallanNumber (yearCode : String) (lookup : Option (List String)) :
    String :=
  match lookup with
  | none => "DO-25-0001"
  | some allChallans =>
    let filtered := allChallans.filter (challanYearMatch yearCode)
    let nextNumber := if filtered.isEmpty then 1 else maxTrailing filtered + 1
    "DO-" ++ yearCode ++ "-" ++ pad4 nextNumber

theorem foldl_max_init_le (l : List Nat) : ∀ init : Nat, init ≤ l.foldl Nat.max init := by
  induction l with
  | nil => intro init; exact le_refl _
  | cons a rest ih =>
    intro init
    exact le_trans (Nat.le_max_left init a) (ih (Nat.max init a))

theorem le_foldl_max (l : List Nat) : ∀ (a : Nat), a ∈ l → ∀ init : Nat, a ≤ l.foldl Nat.max init := by
  induction l with
  | nil => intro a ha; cases ha
  | cons b rest ih =>
    intro a ha init
    rcases List.mem_cons.mp ha with rfl | har
    · exact le_trans (Nat.le_max_right init a) (foldl_max_init_le rest (Nat.max init a))
    · exact ih a har (Nat.max init b)

/-- C10: the generated number is `DO-<year>-` followed by the zero-padded
successor of the maximal trailing suffix over the year-matching existing
numbers; in particular the new suffix strictly exceeds every existing
year-matching suffix; a failed lookup yields the constant `DO-25-0001`. -/
theorem challan_number_generation (yearCode : String) (allChallans : List String) :
    generateNextChallanNumber yearCode (some allChallans)
        = "DO-" ++ yearCode ++ "-"
            ++ pad4 (maxTrailing (allChallans.filter (challanYearMatch yearCode)) + 1)
    ∧ (∀ s ∈ allChallans, challanYearMatch yearCode s = true →
        trailingSuffix s < maxTrailing (allChallans.filter (challanYearMatch yearCode)) + 1)
    ∧ generateNextChallanNumber yearCode none = "DO-25-0001" := by
  refine ⟨?_, ?_, rfl⟩
  · have hnext : ∀ l : List String,
        (if l.isEmpty then 1 else maxTrailing l + 1) = maxTrailing l + 1 := by
      intro l
      cases l with
      | nil => simp [maxTrailing]
      | cons a rest => simp
    show "DO-" ++ yearCode ++ "-"
        ++ pad4 (if (allChallans.filter (challanYearMatch yearCode)).isEmpty then 1
            else maxTrailing (allChallans.filter (challanYearMatch yearCode)) + 1)
      = "DO-" ++ yearCode ++ "-"
        ++ pad4 (maxTrailing (allChallans.filter (challanYearMatch yearCode)) + 1)
    rw [hnext]
  · intro s hs hmatch
    have hmem : trailingSuffix s ∈
        (allChallans.filter (challanYearMatch yearCode)).map trailingSuffix :=
      List.mem_map_of_mem _ (List.mem_filter.mpr ⟨hs, hmatch⟩)
    exact Nat.lt_succ_of_le (le_foldl_max _ _ hmem 0)

/-- Witness for C10: the suffix of an existing `DO-25` number is below the
generated successor. -/
theorem challan_number_generation_witness :
    trailingSuffix "DO-25-0007"
      < maxTrailing (["DO-25-0007", "DC-25-0012"].filter (challanYearMatch "25")) + 1 :=
  (challan_number_generation "25" ["DO-25-0007", "DC-25-0012"]).2.1
    "DO-25-0007" (by decide) (by decide)

end Anzen
